import Mathlib

/-!
Verification development for `buildbot/lkgm_manager.py` (chromite).

The file shallowly embeds `_LKGMCandidateInfo` and `LKGMManager` from
`src/buildbot/lkgm_manager.py`.  Machine-level Python behaviour that the
source exercises (the `re.search` of `LKGM_RE`, `%`-formatting with a
mapping, attribute lookup, `os.path.join`, Python list comparison and
`sorted` with a key function, `try/except` wrapping) is modelled
explicitly.  Operations of the external `manifest_version` module
(`VersionInfo` loading, `BuildSpecsManager._LoadSpecs`,
`_CreateNewBuildSpec`, `_SetInFlight`), whose source is not part of this
repository snapshot, are modelled from the spec as result-valued
capabilities.
-/

/-- Python errors that the embedded code can raise.  `generateBuildSpec`
models `manifest_version.GenerateBuildSpecException` wrapping the message
of an underlying error. -/
inductive PyErr where
  | typeError
  | attributeError
  | valueError
  | keyError
  | assertionError
  | runCommandError
  | gitCommandException
  | generateBuildSpec (inner : PyErr)
  | fuelExhausted
deriving DecidableEq

/-- Value-level model of an `_LKGMCandidateInfo` object: the four version
components (`ver_maj`, `ver_min`, `ver_sp`, `ver_patch`, held by the
`manifest_version.VersionInfo` base class, modelled from the spec as the
immutable 4-tuple of non-negative integers) plus the candidate revision
`ver_revision` set by `_LKGMCandidateInfo.__init__`.  Components are the
numeric values of the digit groups matched by `LKGM_RE`. -/
structure Candidate where
  ver_maj : Nat
  ver_min : Nat
  ver_sp : Nat
  ver_patch : Nat
  ver_revision : Nat
deriving DecidableEq

/-! ### Decimal numerals

`'%s' % n` on a Python int prints the decimal numeral without leading
zeros (and `'0'` for zero).  `natCharsCore` is a fuel-driven long
division; the fuel `n + 1` always suffices. -/

/-- The character for a decimal digit (only digits `0`–`9` arise). -/
def digitChar10 : Nat → Char
  | 0 => '0'
  | 1 => '1'
  | 2 => '2'
  | 3 => '3'
  | 4 => '4'
  | 5 => '5'
  | 6 => '6'
  | 7 => '7'
  | 8 => '8'
  | _ => '9'

/-- Fuel-driven decimal printing of a natural number, most significant
digit first, prepended to `acc`. -/
def natCharsCore : Nat → Nat → List Char → List Char
  | 0, _, acc => acc
  | fuel + 1, n, acc =>
    if n < 10 then digitChar10 n :: acc
    else natCharsCore fuel (n / 10) (digitChar10 (n % 10) :: acc)

/-- Decimal numeral of `n`, as Python's `'%s' % n` prints it. -/
def natChars (n : Nat) : List Char := natCharsCore (n + 1) n []

/-- Decimal numeral of `n` as a string. -/
def natStr (n : Nat) : String := ⟨natChars n⟩

/-- Numeric value of a digit character (`int` applied to one digit). -/
def charVal (c : Char) : Nat := c.toNat - 48

/-- Python `int` on a digit string, with accumulator `a`: the value of
the digits of `l` appended to the digits of `a`. -/
def digitsVal (a : Nat) (l : List Char) : Nat :=
  l.foldl (fun m c => 10 * m + charVal c) a

/-! ### The regular expression `LKGM_RE`

`LKGM_RE = '(\d+\.\d+\.\d+\.\d+)(?:-rc(\d+))?'` is used with
`re.search`, which scans left to right for the first position at which
the pattern matches.  Each `\d+` is greedy; since no digit can also
match `\.` or `-`, maximal munch coincides with the backtracking
semantics of the pattern.  A match yields the four version components
and, when the optional suffix group matched, its numeric value. -/

/-- Maximal (possibly empty) digit prefix of a character list, together
with the rest: the greedy `\d+` / `\d*` step of the regex engine. -/
def takeDigits : List Char → List Char × List Char
  | [] => ([], [])
  | c :: cs =>
    if c.isDigit then
      let p := takeDigits cs
      (c :: p.1, p.2)
    else ([], c :: cs)

/-- Attempt to match `LKGM_RE` anchored at the head of the list.
Returns the four components and the optional `-rcN` value. -/
def matchLKGMAt (cs : List Char) : Option (Nat × Nat × Nat × Nat × Option Nat) :=
  let p1 := takeDigits cs
  if p1.1.isEmpty then none else
  match p1.2 with
  | '.' :: r1 =>
    let p2 := takeDigits r1
    if p2.1.isEmpty then none else
    match p2.2 with
    | '.' :: r2 =>
      let p3 := takeDigits r2
      if p3.1.isEmpty then none else
      match p3.2 with
      | '.' :: r3 =>
        let p4 := takeDigits r3
        if p4.1.isEmpty then none else
        let rev : Option Nat :=
          match p4.2 with
          | '-' :: 'r' :: 'c' :: r4 =>
            let p5 := takeDigits r4
            if p5.1.isEmpty then none else some (digitsVal 0 p5.1)
          | _ => none
        some (digitsVal 0 p1.1, digitsVal 0 p2.1, digitsVal 0 p3.1,
              digitsVal 0 p4.1, rev)
      | _ => none
    | _ => none
  | _ => none

/-- Model of `re.search(LKGM_RE, ...)`: try the anchored match at each successive
position, left to right. -/
def searchLKGM : List Char → Option (Nat × Nat × Nat × Nat × Option Nat)
  | [] => none
  | c :: cs =>
    match matchLKGMAt (c :: cs) with
    | some m => some m
    | none => searchLKGM cs

/-! ### `_LKGMCandidateInfo` -/

/-- A Python argument value as passed to `_LKGMCandidateInfo(...)`: the
source passes either a string or — in `_GetLatestLKGMCandidate` — the
bound method `version_info.VersionString` itself (without calling it). -/
inductive PyVal where
  | str (s : String)
  | boundMethod (name : String)

/-- Model of `_LKGMCandidateInfo.__init__` on a `version_string` argument:
`re.search(LKGM_RE, version_string)` (a non-string argument makes
`re.search` raise `TypeError`), `assert match` (a failed search raises
`AssertionError`), then the components are taken from group 1 and
`ver_revision` from group 2, defaulting to `1` when the optional group
did not participate in the match. -/
def LKGMCandidateInfo.ofArg : PyVal → Except PyErr Candidate
  | .boundMethod _ => .error .typeError
  | .str s =>
    match searchLKGM s.data with
    | none => .error .assertionError
    | some (a, b, c, d, rv) =>
      .ok ⟨a, b, c, d, match rv with | none => 1 | some n => n⟩

/-- Constructing a candidate from a version string (the spec's
`ParseCandidate`); `none` models the raised error. -/
def ParseCandidate (s : String) : Option Candidate :=
  (LKGMCandidateInfo.ofArg (.str s)).toOption

/-- The character list of `_LKGMCandidateInfo.VersionString`:
`'%s.%s.%s.%s-rc%s' % (ver_maj, ver_min, ver_sp, ver_patch, ver_revision)`. -/
def versionChars (c : Candidate) : List Char :=
  natChars c.ver_maj ++ '.' :: natChars c.ver_min ++ '.' :: natChars c.ver_sp
    ++ '.' :: natChars c.ver_patch ++ '-' :: 'r' :: 'c' :: natChars c.ver_revision

/-- Model of `_LKGMCandidateInfo.VersionString`, the canonical wire form. -/
def VersionString (c : Candidate) : String := ⟨versionChars c⟩

/-- Character list of the bare version string.  Modelled from the spec:
`manifest_version.VersionInfo.VersionString` (external module) formats
the four components as `"{major}.{minor}.{servicepack}.{patch}"`. -/
def bareVersionChars (a b c d : Nat) : List Char :=
  natChars a ++ '.' :: natChars b ++ '.' :: natChars c ++ '.' :: natChars d

/-- Bare four-component version string (see `bareVersionChars`). -/
def bareVersionString (a b c d : Nat) : String := ⟨bareVersionChars a b c d⟩

/-- The integer tuple `map(int, [ver_maj, ver_min, ver_sp, ver_patch,
ver_revision])` of a candidate (the spec's `CompareKey`). -/
def CompareKey (c : Candidate) : List Nat :=
  [c.ver_maj, c.ver_min, c.ver_sp, c.ver_patch, c.ver_revision]

/-- Model of `_LKGMCandidateInfo.VersionCompare`: parse the string as a candidate
and return the integer list used as the sort key. -/
def VersionCompare (s : String) : Except PyErr (List Nat) :=
  (LKGMCandidateInfo.ofArg (.str s)).map CompareKey

/-- Python `<` on equal-length lists of ints: lexicographic. -/
def pyListLt : List Nat → List Nat → Bool
  | [], [] => false
  | [], _ :: _ => true
  | _ :: _, [] => false
  | a :: as_, b :: bs =>
    if a < b then true
    else if b < a then false
    else pyListLt as_ bs

/-! ### `IncrementVersion`

`_LKGMCandidateInfo.IncrementVersion` executes
`self.version_revision += 1`, an augmented assignment that first reads
attribute `version_revision`.  The attributes defined on the object are
the four version components (from `VersionInfo`, modelled from the spec,
which carries exactly the 4-tuple) and `ver_revision` set in
`__init__` — so the read raises `AttributeError`.  Had the attribute
existed, the write would create/update `version_revision` while
`ver_revision`, the field `VersionString` reads, stayed unchanged. -/

/-- The attribute dictionary of an `_LKGMCandidateInfo` instance. -/
def Candidate.attrs (c : Candidate) : List (String × Nat) :=
  [("ver_maj", c.ver_maj), ("ver_min", c.ver_min), ("ver_sp", c.ver_sp),
   ("ver_patch", c.ver_patch), ("ver_revision", c.ver_revision)]

/-- Python attribute read: `AttributeError` when the name is absent. -/
def pyGetattr (c : Candidate) (name : String) : Except PyErr Nat :=
  match c.attrs.lookup name with
  | some v => .ok v
  | none => .error .attributeError

/-- Model of `_LKGMCandidateInfo.IncrementVersion(message, dry_run)`.  On success
it would return `(self, self.VersionString())` — the object's observable
`ver_*` attributes untouched by the write to `version_revision`. -/
def IncrementVersion (c : Candidate) (message : String) (dryRun : Bool) :
    Except PyErr (Candidate × String) :=
  match pyGetattr c "version_revision" with
  | .error e => .error e
  | .ok _ => .ok (c, VersionString c)

/-! ### `sorted(…, key=VersionCompare)` and `_GetLatestLKGMCandidate` -/

/-- Stable insertion of a (key, element) pair into an ascending list:
an element is placed after all elements with a key not greater than its
own, as Python's stable sort orders equal keys. -/
def keyedInsert (x : List Nat × String) :
    List (List Nat × String) → List (List Nat × String)
  | [] => [x]
  | y :: ys => if pyListLt x.1 y.1 then x :: y :: ys else y :: keyedInsert x ys

/-- Compute `key(e)` for each element, as `sorted` does before
comparing; a raised error (here `VersionCompare`'s assert) propagates. -/
def computeKeys : List String → Except PyErr (List (List Nat × String))
  | [] => .ok []
  | s :: ss => do
    let k ← VersionCompare s
    let rest ← computeKeys ss
    .ok ((k, s) :: rest)

/-- Model of `sorted(l, key=VersionCompare)`: ascending, stable, comparing the
integer-list keys with Python list `<`. -/
def pySortedByKey (l : List String) : Except PyErr (List String) := do
  let ks ← computeKeys l
  .ok ((ks.foldl (fun acc x => keyedInsert x acc) []).map (fun p => p.2))

/-- Model of `LKGMManager._GetLatestLKGMCandidate(version_info)`.  `all` is the
manager's `self.all` (the published spec names loaded by `_LoadSpecs`,
external module, modelled from the spec as a list of strings);
`versionInfoString` is the value of `version_info.VersionString()` used
by the filter.  When the filter matches, the source returns the whole
`sorted(matched_lkgms, key=self.compare_versions_fn)` list; otherwise it
evaluates `_LKGMCandidateInfo(version_info.VersionString)`, passing the
bound method itself (note: not `VersionString()`).  An empty `self.all`
skips the filter and reaches the same constructor call. -/
def GetLatestLKGMCandidate (all : List String) (versionInfoString : String) :
    Except PyErr (Sum (List String) Candidate) :=
  let matched := all.filter (fun ver => ver == versionInfoString)
  if matched.isEmpty then
    (LKGMCandidateInfo.ofArg (.boundMethod "VersionString")).map Sum.inr
  else
    (pySortedByKey matched).map Sum.inl

/-! ### `CreateNextLKGMCandidate` / `GetNextLKGMCandidate` -/

/-- Modelled from the spec: the operations this manager inherits from
`manifest_version.BuildSpecsManager` (external module, not in this
snapshot).  `getCurrentVersionInfo` yields the baseline version's bare
string (`_GetCurrentVersionInfo` + `VersionString()`); `loadSpecs`
yields `(self.all, self.latest_unprocessed)` as set by `_LoadSpecs`;
`createNewBuildSpec` and `setInFlight` are `_CreateNewBuildSpec` and
`_SetInFlight`.  Each capability either succeeds or raises. -/
structure ManagerEnv where
  getCurrentVersionInfo : Except PyErr String
  loadSpecs : Except PyErr (List String × Option String)
  createNewBuildSpec : Sum (List String) Candidate → Except PyErr (Option String)
  setInFlight : String → Except PyErr Unit
  build_name : String

/-- Body of the `try:` block of `LKGMManager.CreateNextLKGMCandidate`
(the unused `retries` parameter is omitted): load the version info and
the specs, take the latest candidate, create the new build spec, and —
when a version was produced — mark it in-flight with the commit message
`'Automatic: Start %s %s' % (build_name, current_version)`. -/
def createNextBody (env : ManagerEnv) : Except PyErr (Option String) := do
  let vs ← env.getCurrentVersionInfo
  let specs ← env.loadSpecs
  let lkgm ← GetLatestLKGMCandidate specs.1 vs
  let cv ← env.createNewBuildSpec lkgm
  match cv with
  | some v => do
    let _ ← env.setInFlight ("Automatic: Start " ++ env.build_name ++ " " ++ v)
    pure (some v)
  | none => pure none

/-- Body of the `try:` block of `LKGMManager.GetNextLKGMCandidate`:
adopt `self.latest_unprocessed` and mark it in-flight when present. -/
def getNextBody (env : ManagerEnv) : Except PyErr (Option String) := do
  let _ ← env.getCurrentVersionInfo
  let specs ← env.loadSpecs
  match specs.2 with
  | some v => do
    let _ ← env.setInFlight ("Automatic: Start " ++ env.build_name ++ " " ++ v)
    pure (some v)
  | none => pure none

/-- The exception kinds named by the `except` clause:
`cros_lib.RunCommandError` and `manifest_version.GitCommandException`. -/
def isCaught : PyErr → Bool
  | .runCommandError => true
  | .gitCommandException => true
  | _ => false

/-- The `try/except` boundary of both candidate-generation entry points:
a caught error is logged and re-raised as
`GenerateBuildSpecException(err_msg)`; any other error propagates. -/
def catchWrap (r : Except PyErr (Option String)) : Except PyErr (Option String) :=
  match r with
  | .ok v => .ok v
  | .error e => if isCaught e then .error (.generateBuildSpec e) else .error e

/-- Model of `LKGMManager.CreateNextLKGMCandidate`. -/
def CreateNextLKGMCandidate (env : ManagerEnv) : Except PyErr (Option String) :=
  catchWrap (createNextBody env)

/-- Model of `LKGMManager.GetNextLKGMCandidate`. -/
def GetNextLKGMCandidate (env : ManagerEnv) : Except PyErr (Option String) :=
  catchWrap (getNextBody env)

/-! ### `GetOthersStatuses` -/

/-- Marker status stored in `other_statuses` (the dictionary also
stores `None`, modelled as the `Option` layer around this type). -/
inductive BStatus where
  | pass
  | fail
  | inflight
deriving DecidableEq

/-- Python `dict.get(k, None)`. -/
def dictGet {α : Type} : List (String × α) → String → Option α
  | [], _ => none
  | (k', v) :: rest, k => if k' == k then some v else dictGet rest k

/-- Python `d[k] = v`: replace the existing binding, else append. -/
def dictSet {α : Type} : List (String × α) → String → α → List (String × α)
  | [], k, v => [(k, v)]
  | (k', v') :: rest, k, v =>
    if k' == k then (k, v) :: rest else (k', v') :: dictSet rest k v

/-- Whether a string starts with `'/'` (posix absolute path). -/
def startsWithSlash (s : String) : Bool :=
  match s.data with
  | '/' :: _ => true
  | _ => false

/-- Whether a string ends with `'/'`. -/
def endsWithSlash (s : String) : Bool :=
  match s.data.getLast? with
  | some '/' => true
  | _ => false

/-- Model of `os.path.join(a, b)` for posix paths. -/
def osPathJoin (a b : String) : String :=
  if startsWithSlash b then b
  else if a == "" || endsWithSlash a then a ++ b
  else a ++ "/" ++ b

/-- Read a `%(name)` mapping key: the characters up to the closing
parenthesis, and the rest.  `none` when no closing parenthesis exists
(an incomplete format, `ValueError`). -/
def readMappingKey : List Char → Option (List Char × List Char)
  | [] => none
  | ')' :: rest => some ([], rest)
  | c :: rest =>
    match readMappingKey rest with
    | some (key, rem) => some (c :: key, rem)
    | none => none

/-- Python 2 `template % mapping` for string templates: `%%` is a
literal percent and `%(name)s` substitutes `mapping[name]` (`KeyError`
when absent).  Any other character after `%` — in particular the `'{'`
of this source's template, which is not a valid conversion — raises
`ValueError` (CPython: "unsupported format character").  Conversions
other than `s` and the flag/width/precision syntax are not used by any
template in this repository and are folded into the `ValueError` arm. -/
def pyFormatCore (dict : List (String × String)) :
    Nat → List Char → Except PyErr (List Char)
  | 0, _ => .error .fuelExhausted
  | _ + 1, [] => .ok []
  | fuel + 1, '%' :: rest =>
    match rest with
    | '%' :: rest' => ('%' :: ·) <$> pyFormatCore dict fuel rest'
    | '(' :: rest' =>
      match readMappingKey rest' with
      | none => .error .valueError
      | some (key, rem) =>
        match rem with
        | 's' :: rest'' =>
          match dictGet dict ⟨key⟩ with
          | some v => (v.data ++ ·) <$> pyFormatCore dict fuel rest''
          | none => .error .keyError
        | _ => .error .valueError
    | _ => .error .valueError
  | fuel + 1, c :: rest => (c :: ·) <$> pyFormatCore dict fuel rest

/-- Python 2 `%` formatting of a template string with a mapping.  Each
step of `pyFormatCore` consumes at least one template character, so the
fuel `length + 1` is never exhausted. -/
def pyFormat (template : String) (dict : List (String × String)) : Except PyErr String :=
  (pyFormatCore dict (template.data.length + 1) template.data).map (fun l => ⟨l⟩)

/-- Constant `LKGMManager.MAX_TIMEOUT_SECONDS`. -/
def MAX_TIMEOUT_SECONDS : Nat := 300

/-- Constant `LKGMManager.SLEEP_TIMEOUT`. -/
def SLEEP_TIMEOUT : Nat := 30

/-- The per-peer body of the polling round (the `for other in others:`
body): peers already `'pass'`/`'fail'` are skipped; otherwise the three
marker paths are produced by `%`-formatting the templates with
`{'build-name': other}` and probed in the order pass, fail, inflight;
the first existing marker determines the stored status, absence of all
three stores `None`.  `num_complete` counts newly terminal peers. -/
def checkOne (lex : String → Bool) (passFile failFile inflightFile : String)
    (st : List (String × Option BStatus)) (nc : Nat) (other : String) :
    Except PyErr (List (String × Option BStatus) × Nat) :=
  let cur := (dictGet st other).getD none
  if cur = some .pass ∨ cur = some .fail then .ok (st, nc)
  else do
    let otherPass ← pyFormat passFile [("build-name", other)]
    let otherFail ← pyFormat failFile [("build-name", other)]
    let otherInflight ← pyFormat inflightFile [("build-name", other)]
    if lex otherPass then .ok (dictSet st other (some .pass), nc + 1)
    else if lex otherFail then .ok (dictSet st other (some .fail), nc + 1)
    else if lex otherInflight then .ok (dictSet st other (some .inflight), nc)
    else .ok (dictSet st other none, nc)

/-- One polling round over all peers. -/
def checkRound (lex : String → Bool) (passFile failFile inflightFile : String) :
    List String → List (String × Option BStatus) × Nat →
    Except PyErr (List (String × Option BStatus) × Nat)
  | [], s => .ok s
  | o :: os, (st, nc) => do
    let s' ← checkOne lex passFile failFile inflightFile st nc o
    checkRound lex passFile failFile inflightFile os s'

/-- The store and clock environment of `GetOthersStatuses`.  Modelled
from the spec where the external `manifest_version` module holds the
data: `current_version` is the current candidate's wire string and
`dir_pfx` its `DirPrefix()` bucketing (store-defined).  `lexists`
answers `os.path.lexists` as a function of the polling round (the store
may change between `_SyncGitRepo` calls), and `syncTime` is the
wall-clock cost of one `_SyncGitRepo` call (at least one second; the
sleep costs `SLEEP_TIMEOUT`, the path probes are instantaneous). -/
structure OthersEnv where
  manifest_dir : String
  current_version : String
  dir_pfx : String
  lexists : Nat → String → Bool
  syncTime : Nat

/-- The `while (time.time() - start_time) < self.MAX_TIMEOUT_SECONDS:`
loop.  Each iteration syncs the repo (advancing the clock by
`syncTime`), runs a round over the peers, and sleeps `SLEEP_TIMEOUT`
only when not all peers are terminal — completion does not exit the
loop.  The result carries the status dictionary together with the
number of `_SyncGitRepo` calls and of sleeps performed.  The fuel
argument exceeds every possible iteration count when `0 < syncTime`. -/
def pollLoop (env : OthersEnv) (others : List String)
    (passFile failFile inflightFile : String) :
    Nat → Nat → Nat → Nat → Nat → List (String × Option BStatus) →
    Except PyErr (List (String × Option BStatus) × Nat × Nat)
  | 0, _, _, _, _, _ => .error .fuelExhausted
  | fuel + 1, elapsed, syncs, sleeps, nc, st =>
    if elapsed < MAX_TIMEOUT_SECONDS then
      match checkRound (env.lexists syncs) passFile failFile inflightFile others (st, nc) with
      | .error e => .error e
      | .ok (st', nc') =>
        if nc' < others.length then
          pollLoop env others passFile failFile inflightFile fuel
            (elapsed + env.syncTime + SLEEP_TIMEOUT) (syncs + 1) (sleeps + 1) nc' st'
        else
          pollLoop env others passFile failFile inflightFile fuel
            (elapsed + env.syncTime) (syncs + 1) sleeps nc' st'
    else .ok (st, syncs, sleeps)

/-- Model of `LKGMManager.GetOthersStatuses(others)`: build the marker path
templates (the template component for the builder name is the literal
`'%\x7bbuild_name\x7ds'` of the source) and run the polling loop. -/
def GetOthersStatuses (env : OthersEnv) (others : List String) :
    Except PyErr (List (String × Option BStatus) × Nat × Nat) :=
  let xmlName := env.current_version ++ ".xml"
  let specsForBuild :=
    osPathJoin (osPathJoin (osPathJoin env.manifest_dir "LKGM-candidates")
      "build-name") "%\x7bbuild_name\x7ds"
  let passFile := osPathJoin (osPathJoin (osPathJoin specsForBuild "pass") env.dir_pfx) xmlName
  let failFile := osPathJoin (osPathJoin (osPathJoin specsForBuild "fail") env.dir_pfx) xmlName
  let inflightFile :=
    osPathJoin (osPathJoin (osPathJoin specsForBuild "inflight") env.dir_pfx) xmlName
  pollLoop env others passFile failFile inflightFile
    (MAX_TIMEOUT_SECONDS + 1) 0 0 0 0 []

/-! ## Lemmas about decimal numerals -/

theorem natCharsCore_fuel (n : Nat) : ∀ f1 f2 acc, n < f1 → n < f2 →
    natCharsCore f1 n acc = natCharsCore f2 n acc := by
  induction n using Nat.strong_induction_on with
  | _ n ih =>
    intro f1 f2 acc h1 h2
    match f1, f2 with
    | f1 + 1, f2 + 1 =>
      by_cases h : n < 10
      · simp [natCharsCore, h]
      · have h10 : 10 ≤ n := Nat.le_of_not_lt h
        have hlt : n / 10 < n := Nat.div_lt_self (by omega) (by omega)
        simp only [natCharsCore, if_neg h]
        exact ih (n / 10) hlt _ _ _ (by omega) (by omega)

theorem natCharsCore_acc (n : Nat) : ∀ f acc, n < f →
    natCharsCore f n acc = natCharsCore f n [] ++ acc := by
  induction n using Nat.strong_induction_on with
  | _ n ih =>
    intro f acc h
    match f with
    | f + 1 =>
      by_cases h9 : n < 10
      · simp [natCharsCore, h9]
      · have h10 : 10 ≤ n := Nat.le_of_not_lt h9
        have hlt : n / 10 < n := Nat.div_lt_self (by omega) (by omega)
        have hf : n / 10 < f := by omega
        simp only [natCharsCore, if_neg h9]
        rw [ih (n / 10) hlt f _ hf, ih (n / 10) hlt f [digitChar10 (n % 10)] hf,
          List.append_assoc]
        rfl

theorem natChars_lt10 {n : Nat} (h : n < 10) : natChars n = [digitChar10 n] := by
  simp [natChars, natCharsCore, h]

theorem natChars_ge10 {n : Nat} (h : 10 ≤ n) :
    natChars n = natChars (n / 10) ++ [digitChar10 (n % 10)] := by
  have hlt : n / 10 < n := Nat.div_lt_self (by omega) (by omega)
  show natCharsCore (n + 1) n [] = _
  simp only [natCharsCore, if_neg (Nat.not_lt.mpr h)]
  rw [natCharsCore_fuel (n / 10) n (n / 10 + 1) _ (by omega) (by omega),
    natCharsCore_acc (n / 10) (n / 10 + 1) _ (by omega)]
  rfl

theorem digitChar10_isDigit {d : Nat} (h : d < 10) : (digitChar10 d).isDigit = true := by
  interval_cases d <;> rfl

theorem charVal_digitChar10 {d : Nat} (h : d < 10) : charVal (digitChar10 d) = d := by
  interval_cases d <;> rfl

theorem natChars_all_digits (n : Nat) : (natChars n).all Char.isDigit = true := by
  induction n using Nat.strong_induction_on with
  | _ n ih =>
    by_cases h : n < 10
    · simp [natChars_lt10 h, digitChar10_isDigit h]
    · have h10 : 10 ≤ n := Nat.le_of_not_lt h
      have hlt : n / 10 < n := Nat.div_lt_self (by omega) (by omega)
      have hm : n % 10 < 10 := Nat.mod_lt _ (by omega)
      simp [natChars_ge10 h10, List.all_append, ih _ hlt, digitChar10_isDigit hm]

theorem natChars_ne_nil (n : Nat) : natChars n ≠ [] := by
  by_cases h : n < 10
  · simp [natChars_lt10 h]
  · simp [natChars_ge10 (Nat.le_of_not_lt h)]

theorem natChars_isEmpty (n : Nat) : (natChars n).isEmpty = false := by
  cases h : natChars n with
  | nil => exact absurd h (natChars_ne_nil n)
  | cons x xs => rfl

theorem digitsVal_append (a : Nat) (l1 l2 : List Char) :
    digitsVal a (l1 ++ l2) = digitsVal (digitsVal a l1) l2 := by
  simp [digitsVal, List.foldl_append]

theorem digitsVal_natChars (n : Nat) : ∀ a : Nat,
    digitsVal a (natChars n) = a * 10 ^ (natChars n).length + n := by
  induction n using Nat.strong_induction_on with
  | _ n ih =>
    intro a
    by_cases h : n < 10
    · simp [natChars_lt10 h, digitsVal, charVal_digitChar10 h]
      ring
    · have h10 : 10 ≤ n := Nat.le_of_not_lt h
      have hlt : n / 10 < n := Nat.div_lt_self (by omega) (by omega)
      have hm : n % 10 < 10 := Nat.mod_lt _ (by omega)
      rw [natChars_ge10 h10, digitsVal_append, ih _ hlt a]
      show 10 * (a * 10 ^ (natChars (n / 10)).length + n / 10)
            + charVal (digitChar10 (n % 10))
          = a * 10 ^ (natChars (n / 10) ++ [digitChar10 (n % 10)]).length + n
      have hlen : (natChars (n / 10) ++ [digitChar10 (n % 10)]).length
          = (natChars (n / 10)).length + 1 := by simp
      rw [charVal_digitChar10 hm, hlen, pow_succ, ← mul_assoc]
      have hdm : 10 * (n / 10) + n % 10 = n := Nat.div_add_mod n 10
      set t := a * 10 ^ (natChars (n / 10)).length with ht
      omega

theorem digitsVal0_natChars (n : Nat) : digitsVal 0 (natChars n) = n := by
  simpa using digitsVal_natChars n 0

/-! ## Lemmas about the regex search on canonical strings -/

/-- Head of the list is not a digit (or the list is empty): the
condition under which greedy `\d+` stops exactly at a boundary. -/
def headNotDigit : List Char → Prop
  | [] => True
  | c :: _ => c.isDigit = false

theorem takeDigits_append (ds rest : List Char) (hds : ds.all Char.isDigit = true)
    (hr : headNotDigit rest) : takeDigits (ds ++ rest) = (ds, rest) := by
  induction ds with
  | nil =>
    cases rest with
    | nil => rfl
    | cons c cs =>
      have hc : c.isDigit = false := hr
      simp [takeDigits, hc]
  | cons d ds ihd =>
    simp only [List.all_cons, Bool.and_eq_true] at hds
    simp [takeDigits, hds.1, ihd hds.2]

theorem takeDigits_natChars_dot (n : Nat) (rest : List Char) :
    takeDigits (natChars n ++ '.' :: rest) = (natChars n, '.' :: rest) :=
  takeDigits_append _ _ (natChars_all_digits n) (by simp [headNotDigit])

/-- The character list of the optional `-rcN` suffix. -/
def rcSuffixChars : Option Nat → List Char
  | none => []
  | some n => '-' :: 'r' :: 'c' :: natChars n

/-- Canonical candidate character list with an optional revision
suffix, parenthesized so that every `takeDigits` step sees the shape
`numeral ++ separator :: rest`. -/
def canonChars (a b c d : Nat) (r : Option Nat) : List Char :=
  natChars a ++ ('.' :: (natChars b ++ ('.' :: (natChars c
    ++ ('.' :: (natChars d ++ rcSuffixChars r))))))

theorem takeDigits_natChars_rc (n : Nat) (r : Option Nat) :
    takeDigits (natChars n ++ rcSuffixChars r) = (natChars n, rcSuffixChars r) := by
  apply takeDigits_append _ _ (natChars_all_digits n)
  cases r with
  | none => trivial
  | some m => simp [rcSuffixChars, headNotDigit]

theorem takeDigits_natChars (n : Nat) : takeDigits (natChars n) = (natChars n, []) := by
  simpa using takeDigits_append (natChars n) [] (natChars_all_digits n) trivial

theorem matchLKGMAt_canon (a b c d : Nat) (r : Option Nat) :
    matchLKGMAt (canonChars a b c d r) = some (a, b, c, d, r) := by
  unfold canonChars
  simp only [matchLKGMAt, takeDigits_natChars_dot, takeDigits_natChars_rc,
    natChars_isEmpty, Bool.false_eq_true, if_false, digitsVal0_natChars]
  cases r with
  | none => simp [rcSuffixChars]
  | some m =>
    simp [rcSuffixChars, takeDigits_natChars, natChars_isEmpty, digitsVal0_natChars]

theorem canonChars_ne_nil (a b c d : Nat) (r : Option Nat) :
    canonChars a b c d r ≠ [] := by
  simp [canonChars, natChars_ne_nil a]

theorem searchLKGM_of_match (l : List Char) (m : Nat × Nat × Nat × Nat × Option Nat)
    (hne : l ≠ []) (h : matchLKGMAt l = some m) : searchLKGM l = some m := by
  cases l with
  | nil => exact absurd rfl hne
  | cons c cs => simp [searchLKGM, h]

theorem searchLKGM_canon (a b c d : Nat) (r : Option Nat) :
    searchLKGM (canonChars a b c d r) = some (a, b, c, d, r) :=
  searchLKGM_of_match _ _ (canonChars_ne_nil a b c d r) (matchLKGMAt_canon a b c d r)

theorem versionChars_eq_canon (c : Candidate) :
    versionChars c = canonChars c.ver_maj c.ver_min c.ver_sp c.ver_patch
      (some c.ver_revision) := by
  simp [versionChars, canonChars, rcSuffixChars]

theorem bareVersionChars_eq_canon (a b c d : Nat) :
    bareVersionChars a b c d = canonChars a b c d none := by
  simp [bareVersionChars, canonChars, rcSuffixChars]

theorem ofArg_versionString (c : Candidate) :
    LKGMCandidateInfo.ofArg (.str (VersionString c)) = .ok c := by
  obtain ⟨a, b, s, d, r⟩ := c
  show LKGMCandidateInfo.ofArg (.str ⟨versionChars ⟨a, b, s, d, r⟩⟩) = _
  simp only [LKGMCandidateInfo.ofArg, versionChars_eq_canon, searchLKGM_canon]

theorem strData_append (s t : String) : (s ++ t).data = s.data ++ t.data := by
  cases s; cases t; rfl

theorem ofArg_bare_rc (a b c d r : Nat) :
    LKGMCandidateInfo.ofArg
      (.str (bareVersionString a b c d ++ "-rc" ++ natStr r)) = .ok ⟨a, b, c, d, r⟩ := by
  have hdata : (bareVersionString a b c d ++ "-rc" ++ natStr r).data
      = canonChars a b c d (some r) := by
    rw [strData_append, strData_append]
    show bareVersionChars a b c d ++ ['-', 'r', 'c'] ++ natChars r = _
    simp [bareVersionChars, canonChars, rcSuffixChars]
  simp only [LKGMCandidateInfo.ofArg, hdata, searchLKGM_canon]

theorem ofArg_bare (a b c d : Nat) :
    LKGMCandidateInfo.ofArg (.str (bareVersionString a b c d)) = .ok ⟨a, b, c, d, 1⟩ := by
  show LKGMCandidateInfo.ofArg (.str ⟨bareVersionChars a b c d⟩) = _
  simp only [LKGMCandidateInfo.ofArg, bareVersionChars_eq_canon, searchLKGM_canon]

/-! ## Helper lemmas for the claim theorems -/

theorem pyListLt_cons_eq (x : Nat) (xs ys : List Nat) :
    pyListLt (x :: xs) (x :: ys) = pyListLt xs ys := by
  simp [pyListLt]

theorem pyListLt_cons_lt {x y : Nat} (h : x < y) (xs ys : List Nat) :
    pyListLt (x :: xs) (y :: ys) = true := by
  simp [pyListLt, h]

theorem catchWrap_error_not_caught (r : Except PyErr (Option String)) (e : PyErr)
    (h : catchWrap r = .error e) : isCaught e = false := by
  cases r with
  | ok v => simp [catchWrap] at h
  | error e' =>
    by_cases hc : isCaught e' = true
    · simp [catchWrap, hc] at h
      subst h
      rfl
    · simp [catchWrap, hc] at h
      subst h
      simpa using hc

theorem catchWrap_caught (r : Except PyErr (Option String)) (e : PyErr)
    (h1 : r = .error e) (h2 : isCaught e = true) :
    catchWrap r = .error (.generateBuildSpec e) := by
  subst h1
  simp [catchWrap, h2]

/-- Whether an error is a `GenerateBuildSpecException` wrapper. -/
def isWrappedGBS : PyErr → Bool
  | .generateBuildSpec _ => true
  | _ => false

/-- Store/clock environment: every marker path exists (in particular a
pass marker for every peer from the very first round) and a repo sync
takes one second. -/
def envAllPass : OthersEnv :=
  { manifest_dir := "/tmp/manifests", current_version := "1.2.0.0-rc1",
    dir_pfx := "1.2", lexists := fun _ _ => true, syncTime := 1 }

/-- Store/clock environment used for the path-scheme probe. -/
def envPathProbe : OthersEnv :=
  { manifest_dir := "/b/manifests", current_version := "1.2.0.0-rc1",
    dir_pfx := "1.2", lexists := fun _ _ => true, syncTime := 1 }

/-- Store/clock environment in which no marker ever appears, so every
peer stays non-terminal for the whole polling budget. -/
def envNoMarkers : OthersEnv :=
  { manifest_dir := "/tmp/manifests", current_version := "1.2.0.0-rc1",
    dir_pfx := "1.2", lexists := fun _ _ => false, syncTime := 1 }

/-- Store/clock environment in which both the pass and the fail marker
of every peer exist simultaneously. -/
def envConflictMarkers : OthersEnv :=
  { manifest_dir := "/tmp/manifests", current_version := "1.2.0.0-rc1",
    dir_pfx := "1.2", lexists := fun _ _ => true, syncTime := 1 }

/-- Manager environment in which every external capability succeeds:
the baseline version reads as `1.2.0.0` and no candidate has been
published yet (`self.all` empty). -/
def envParseFail : ManagerEnv :=
  { getCurrentVersionInfo := .ok "1.2.0.0",
    loadSpecs := .ok ([], none),
    createNewBuildSpec := fun _ => .ok none,
    setInFlight := fun _ => .ok (),
    build_name := "x86-generic-pre-flight-queue" }

/-- Manager environment in which reading the version info raises
`GitCommandException`. -/
def envCmdFail : ManagerEnv :=
  { getCurrentVersionInfo := .error .gitCommandException,
    loadSpecs := .ok ([], none),
    createNewBuildSpec := fun _ => .ok none,
    setInFlight := fun _ => .ok (),
    build_name := "x86-generic-pre-flight-queue" }

/-- Manager environment in which reading the version info raises
`RunCommandError`. -/
def envRunFail : ManagerEnv :=
  { getCurrentVersionInfo := .error .runCommandError,
    loadSpecs := .ok ([], none),
    createNewBuildSpec := fun _ => .ok none,
    setInFlight := fun _ => .ok (),
    build_name := "x86-generic-pre-flight-queue" }

/-! ## Claim theorems -/

/-- C1.  The claim states that `CreateNextLKGMCandidate`'s selection
step picks the single already-published candidate with the greatest
integer compare key for the current baseline, and synthesizes a fresh
`rev = 1` candidate when none exists.  The code diverges: with no
matching published candidate (here `all = []`, baseline `1.2.0.0`) the
fallback constructs `_LKGMCandidateInfo(version_info.VersionString)` —
the bound method, not its result — so `re.search` raises `TypeError`
instead of producing `1.2.0.0-rc1`; the filter compares full candidate
strings against the bare version string, so canonical `-rcN` candidates
never match either; and when literal matches do exist the method
returns the whole ascending-sorted list, not its greatest element. -/
theorem getLatestLKGMCandidate_bound_method_typeerror :
    GetLatestLKGMCandidate [] "1.2.0.0" = .error .typeError ∧
    GetLatestLKGMCandidate ["1.2.0.0-rc1", "1.2.0.0-rc2"] "1.2.0.0" = .error .typeError ∧
    GetLatestLKGMCandidate ["1.2.0.0", "1.2.0.0"] "1.2.0.0"
      = .ok (.inl ["1.2.0.0", "1.2.0.0"]) :=
  ⟨rfl, rfl, rfl⟩

/-- C2.  The claim states that `IncrementVersion` returns a new
candidate with the revision incremented, leaving the receiver
unchanged.  On every candidate the code instead raises
`AttributeError`: the augmented assignment reads `version_revision`,
an attribute the object never defines (its revision attribute is
`ver_revision`). -/
theorem incrementVersion_raises_attributeerror (c : Candidate) (m : String) (d : Bool) :
    IncrementVersion c m d = .error .attributeError := rfl

/-- C3.  The claim states that with every peer's pass marker already in
the store, `GetOthersStatuses` returns after the first round, without
sleeping, mapping every peer to pass.  With all markers present from
round one, the function instead raises `ValueError` while
`%`-formatting the first peer's marker path, returning no mapping at
all; independently the loop, whose guard tests only elapsed time, would
keep syncing until `MAX_TIMEOUT_SECONDS` even after completion. -/
theorem getOthersStatuses_all_pass_raises_valueerror :
    GetOthersStatuses envAllPass
      ["x86-generic-pre-flight-queue", "arm-generic-pre-flight-queue"]
      = .error .valueError :=
  rfl

/-- C4.  Round trip: parsing the canonical string form of any candidate
recovers the candidate exactly; in particular the `-rcN` suffix (which
`VersionString` always emits) parses back to the same revision. -/
theorem parseCandidate_versionString_roundtrip (c : Candidate) :
    ParseCandidate (VersionString c) = some c := by
  simp [ParseCandidate, ofArg_versionString, Except.toOption]

/-- C5.  The comparison key is the integer tuple (major, minor,
servicepack, patch, rev) compared lexicographically: a smaller patch
with equal revision compares below, an equal version with smaller
revision compares below, and `VersionCompare` of a candidate's wire
string is exactly that integer tuple (so ordering is never by raw
string). -/
theorem versionCompare_integer_lexicographic (a b c p1 p2 r s : Nat) (h : p1 < p2) :
    pyListLt (CompareKey ⟨a, b, c, p1, r⟩) (CompareKey ⟨a, b, c, p2, r⟩) = true ∧
    pyListLt (CompareKey ⟨a, b, c, p1, s⟩) (CompareKey ⟨a, b, c, p1, s + 1⟩) = true ∧
    (∀ cand : Candidate, VersionCompare (VersionString cand) = .ok (CompareKey cand)) := by
  refine ⟨?_, ?_, ?_⟩
  · show pyListLt (a :: b :: c :: p1 :: [r]) (a :: b :: c :: p2 :: [r]) = true
    rw [pyListLt_cons_eq, pyListLt_cons_eq, pyListLt_cons_eq]
    exact pyListLt_cons_lt h _ _
  · show pyListLt (a :: b :: c :: p1 :: [s]) (a :: b :: c :: p1 :: [s + 1]) = true
    rw [pyListLt_cons_eq, pyListLt_cons_eq, pyListLt_cons_eq, pyListLt_cons_eq]
    exact pyListLt_cons_lt (Nat.lt_succ_self s) _ _
  · intro cand
    simp [VersionCompare, ofArg_versionString, Except.map]

/-- Witness for C5 at the concrete patches 9 < 10 (where a raw-string
comparison would order them the other way) and revisions 4 < 5. -/
theorem versionCompare_integer_lexicographic_witness :
    pyListLt (CompareKey ⟨1, 2, 3, 9, 1⟩) (CompareKey ⟨1, 2, 3, 10, 1⟩) = true ∧
    pyListLt (CompareKey ⟨1, 2, 3, 9, 4⟩) (CompareKey ⟨1, 2, 3, 9, 4 + 1⟩) = true ∧
    VersionCompare (VersionString ⟨1, 2, 3, 9, 1⟩) = .ok (CompareKey ⟨1, 2, 3, 9, 1⟩) := by
  have h := versionCompare_integer_lexicographic 1 2 3 9 10 1 4 (by decide)
  exact ⟨h.1, h.2.1, h.2.2 ⟨1, 2, 3, 9, 1⟩⟩

/-- C6.  The claim states that the status query probes marker files at
`<manifest-root>/LKGM-candidates/build-name/<builder-name>/...` with
the peer's name substituted.  The code's template component for the
builder name uses brace syntax (not the `%(name)s` mapping syntax) so
applying `%` raises `ValueError` — no path with the peer's name is
ever produced; the final conjunct shows the substitution the template
would have produced had it used the mapping syntax, which is also the
claim's path scheme (even then the source's placeholder name
`build_name` differs from the dictionary key `build-name`). -/
theorem getOthersStatuses_marker_path_format_error :
    GetOthersStatuses envPathProbe ["x86-generic-pre-flight-queue"] = .error .valueError ∧
    pyFormat "/b/manifests/LKGM-candidates/build-name/%\x7bbuild_name\x7ds/pass/1.2/1.2.0.0-rc1.xml"
      [("build-name", "x86-generic-pre-flight-queue")] = .error .valueError ∧
    pyFormat "/b/manifests/LKGM-candidates/build-name/%(build-name)s/pass/1.2/1.2.0.0-rc1.xml"
      [("build-name", "x86-generic-pre-flight-queue")]
      = .ok "/b/manifests/LKGM-candidates/build-name/x86-generic-pre-flight-queue/pass/1.2/1.2.0.0-rc1.xml" :=
  ⟨rfl, rfl, rfl⟩

/-- C7.  The claim states that when the polling budget elapses with
peers still non-terminal, the partial snapshot is returned and the
timeout is only reported, never thrown.  With one peer that never
produces a marker, the function instead raises `ValueError` from the
marker-path formatting in the very first round: the timeout path that
logs and returns the partial dictionary is unreachable for any
non-empty peer list. -/
theorem getOthersStatuses_timeout_raises_not_partial :
    GetOthersStatuses envNoMarkers ["slow-builder"] = .error .valueError :=
  rfl

/-- C8 counterexample.  The claim states that any I/O or parse failure
during candidate generation surfaces as `GenerateBuildSpecException`.
In an environment where every external capability succeeds, generation
fails while parsing the fallback candidate (the bound-method argument
makes `re.search` raise `TypeError`), and that error reaches the caller
unwrapped: it is not a `GenerateBuildSpecException` and not one of the
caught kinds. -/
theorem createNext_parse_failure_not_wrapped :
    CreateNextLKGMCandidate envParseFail = .error .typeError ∧
    isWrappedGBS .typeError = false ∧ isCaught .typeError = false :=
  ⟨rfl, rfl, rfl⟩

/-- C8 (amended).  The `try/except` boundary of both entry points wraps
exactly the caught kinds `RunCommandError` and `GitCommandException`
into `GenerateBuildSpecException` — those kinds never escape raw — and
every other failure propagates unwrapped; there is no retry. -/
theorem candidate_generation_wrapping_boundary :
    (∀ env e, CreateNextLKGMCandidate env = .error e → isCaught e = false) ∧
    (∀ env e, GetNextLKGMCandidate env = .error e → isCaught e = false) ∧
    (∀ env e, createNextBody env = .error e → isCaught e = true →
      CreateNextLKGMCandidate env = .error (.generateBuildSpec e)) ∧
    (∀ env e, getNextBody env = .error e → isCaught e = true →
      GetNextLKGMCandidate env = .error (.generateBuildSpec e)) :=
  ⟨fun _ e h => catchWrap_error_not_caught _ e h,
   fun _ e h => catchWrap_error_not_caught _ e h,
   fun _ e h1 h2 => catchWrap_caught _ e h1 h2,
   fun _ e h1 h2 => catchWrap_caught _ e h1 h2⟩

/-- Witness for C8 (amended): a failing `GitCommandException` read is
wrapped by `CreateNextLKGMCandidate`, a failing `RunCommandError` read
is wrapped by `GetNextLKGMCandidate`, and the wrapped error is itself
no longer of a caught kind. -/
theorem candidate_generation_wrapping_boundary_witness :
    CreateNextLKGMCandidate envCmdFail = .error (.generateBuildSpec .gitCommandException) ∧
    GetNextLKGMCandidate envRunFail = .error (.generateBuildSpec .runCommandError) ∧
    isCaught (.generateBuildSpec .gitCommandException) = false := by
  have h := candidate_generation_wrapping_boundary
  have h1 := h.2.2.1 envCmdFail .gitCommandException (by rfl) (by rfl)
  have h2 := h.2.2.2 envRunFail .runCommandError (by rfl) (by rfl)
  exact ⟨h1, h2, h.1 envCmdFail (.generateBuildSpec .gitCommandException) h1⟩

/-- C9 counterexample.  The claim states every parsed candidate has
revision at least 1.  The input `1.2.3.4-rc0` contains the version
pattern, its `-rcN` suffix parses (the string `"0"` is truthy, so the
default is not applied), and the resulting revision is 0 < 1. -/
theorem parseCandidate_rc0_revision_zero :
    ParseCandidate "1.2.3.4-rc0" = some ⟨1, 2, 3, 4, 0⟩ ∧ ¬(1 ≤ (0 : Nat)) :=
  ⟨rfl, by decide⟩

/-- C9 (amended).  The revision of a parsed candidate equals the parsed
`-rcN` value when the suffix is present — including `N = 0`, the one
case in which the revision is below 1 — and defaults to 1 when the
suffix is absent. -/
theorem parseCandidate_revision_semantics (a b c d r : Nat) :
    ParseCandidate (bareVersionString a b c d) = some ⟨a, b, c, d, 1⟩ ∧
    ParseCandidate (bareVersionString a b c d ++ "-rc" ++ natStr r) = some ⟨a, b, c, d, r⟩ := by
  constructor
  · simp [ParseCandidate, ofArg_bare, Except.toOption]
  · simp [ParseCandidate, ofArg_bare_rc, Except.toOption]

/-- C10.  The claim states that within one round the marker checks are
ordered pass, fail, inflight, so pass shadows fail and fail shadows
inflight.  In the source the per-peer check never executes: the marker
paths are produced by `%`-formatting the invalid template, which raises
`ValueError` first (first conjunct).  The remaining conjuncts run the
per-peer check `checkOne` (the embedding of the `if/elif` chain,
including the path formatting) with templates in valid mapping syntax:
with both pass and fail markers present the stored status is pass, and
with fail and inflight present but pass absent it is fail —
demonstrating the check order the chain implements. -/
theorem getOthersStatuses_marker_order :
    GetOthersStatuses envConflictMarkers ["peer-with-both-markers"] = .error .valueError ∧
    checkOne (fun _ => true) "pass/%(build-name)s" "fail/%(build-name)s"
      "inflight/%(build-name)s" [] 0 "peer"
      = .ok ([("peer", some .pass)], 1) ∧
    checkOne (fun p => p == "fail/peer" || p == "inflight/peer")
      "pass/%(build-name)s" "fail/%(build-name)s" "inflight/%(build-name)s" [] 0 "peer"
      = .ok ([("peer", some .fail)], 1) :=
  ⟨rfl, rfl, rfl⟩
